import Mathlib

/-!
Shallow embedding of the PyGdbRemoteClient packet codec
(`src/gdb_remote_client/utils.py`) and stream-transport layer
(`src/gdb_remote_client/client_base.py`), with theorems checking the
design specification against it.

Conventions of the embedding:
* Python `bytes` values are `List Nat` whose elements are byte values
  (0–255); all inputs handled by the code are of this shape.
* Python exceptions are an inductive `Err`; a raise site becomes an
  `Except.error` carrying the constructor for that site (with the
  dynamic data the message interpolates, where relevant).
* Python float time is modelled as `ℚ`.
-/

/-- Exception values raised by the code. One constructor per raise site;
`Err.isPacketFormatError`/`Err.isProtocolError` recover the Python
exception class of each constructor. -/
inductive Err where
  /-- PacketFormatError "Missing one more character after }" -/
  | missingCharAfterBrace
  /-- PacketFormatError "Invalid run-length sequence: Missing one more character after *" -/
  | runLengthMissingChar
  /-- PacketFormatError "Invalid run-length sequence: Bytes # or $ cannot be used for repetition count" -/
  | runLengthForbiddenCountByte
  /-- PacketFormatError "Invalid run-length sequence: The ASCII code of the run-length repetiton byte must be in range 32 - 126" -/
  | runLengthCountOutOfRange
  /-- UnicodeEncodeError from `chr(v).encode("ascii")` with `v ≥ 128` (in `_escape_byte`) -/
  | unicodeEncodeFailed (v : Nat)
  /-- ValueError "Invalid checksum, expected two hex digits" (in `create_packet`) -/
  | invalidCustomChecksum
  /-- PacketFormatError "Too short packet to be valid, expected at least 4 bytes" -/
  | packetTooShort
  /-- PacketFormatError "Expected first packet byte to be $, found ..." -/
  | badFirstChar (found : List Nat)
  /-- PacketFormatError "Expected # character before the checksum, found ..." -/
  | badHashChar (found : List Nat)
  /-- PacketFormatError "Found special character $ in packet data" -/
  | dollarInPacketData
  /-- PacketFormatError "Found special character # in packet data" -/
  | hashInPacketData
  /-- PacketFormatError "Received checksum has incorrect syntax. Expected two hex digits, found ..." -/
  | badChecksumDigits (found : List Nat)
  /-- PacketFormatError "Packet has invalid checksum. Expected ..., found ..." -/
  | checksumMismatch (expected found : List Nat)
  /-- RuntimeError for sending while not connected -/
  | notConnectedSend
  /-- RuntimeError for receiving while not connected -/
  | notConnectedRecv
  /-- RuntimeError "Already connected" -/
  | alreadyConnected
  /-- RecvTimeoutError "Timeout elapsed. Did not manage to receive required data within ... sec" -/
  | recvTimeout (timeout : ℚ)
  /-- ProtocolError "Received negative acknowledgement (NACK)" -/
  | nackReceived
  /-- ProtocolError "Received unexpected character, neither ACK or NACK: ..." -/
  | unexpectedAckByte (found : List Nat)
  /-- ProtocolError "Unexpected character at the start of packet. Expected ..." -/
  | badPacketStart (found : List Nat)
  /-- ProtocolError "Excessive packet received - larger than ... bytes" -/
  | packetTooLarge (limit : Nat)
  /-- AssertionError from a failing Python `assert` statement -/
  | assertionFailed
deriving DecidableEq

/-- Classifies the `Err` constructors raised as Python `PacketFormatError`. -/
def Err.isPacketFormatError : Err → Bool
  | .missingCharAfterBrace | .runLengthMissingChar | .runLengthForbiddenCountByte
  | .runLengthCountOutOfRange | .packetTooShort | .badFirstChar _ | .badHashChar _
  | .dollarInPacketData | .hashInPacketData | .badChecksumDigits _
  | .checksumMismatch _ _ => true
  | _ => false

/-- Classifies the `Err` constructors raised as Python `ProtocolError`. -/
def Err.isProtocolError : Err → Bool
  | .nackReceived | .unexpectedAckByte _ | .badPacketStart _ | .packetTooLarge _ => true
  | _ => false

/-!  Packet codec (`utils.py`). -/

/-- Source `_escape_byte` (also `_unescape_byte`, which is an alias of it):
`chr(c[0] ^ 0x20).encode("ascii")`.  The `.encode("ascii")` raises
`UnicodeEncodeError` when the XOR result is not an ASCII code point,
i.e. when it is `≥ 128`. -/
def escape_byte (c : Nat) : Except Err (List Nat) :=
  if c ^^^ 32 < 128 then .ok [c ^^^ 32] else .error (.unicodeEncodeFailed (c ^^^ 32))

/-- Source `_unescape_byte`: defined in the source as `_escape_byte(c)`. -/
def unescape_byte (c : Nat) : Except Err (List Nat) :=
  escape_byte c

/-- Source `_needs_escape`: `c in b"}$#"` (`}` = 125, `$` = 36, `#` = 35). -/
def needs_escape (c : Nat) : Bool :=
  c == 125 || c == 36 || c == 35

/-- Source `encode_packet_data`: each byte needing escape is emitted as
`}` followed by `byte XOR 0x20`; other bytes are copied.  The source goes
through `_escape_byte`, whose ASCII check cannot fail here: the three
escaped bytes 125/36/35 XOR to 93/4/3, all `< 128`
(see `escape_byte_of_needs_escape`). -/
def encode_packet_data : List Nat → List Nat
  | [] => []
  | c :: rest =>
      (if needs_escape c then [125, c ^^^ 32] else [c]) ++ encode_packet_data rest

/-- Source `_expand_run_length_sequence`, applied to the 3-byte window
`[orig_byte, 42, repetition_byte]` (`*` = 42): the count byte must not be
`#` (35) or `$` (36) and must lie in ASCII range 32–126; the result is
`orig_byte` repeated `repetition_byte - 28` times. -/
def expand_run_length_sequence (orig_byte repetition_byte : Nat) : Except Err (List Nat) :=
  if repetition_byte = 35 ∨ repetition_byte = 36 then
    .error .runLengthForbiddenCountByte
  else if ¬ (32 ≤ repetition_byte ∧ repetition_byte ≤ 126) then
    .error .runLengthCountOutOfRange
  else
    .ok (List.replicate (repetition_byte - 28) orig_byte)

/-- Source `decode_packet_data`: a left-to-right scan.  The source peeks
at a window `c = data[pos:pos+3]` and advances `pos` by 2 (escape), 3
(run-length) or 1 (plain copy); here the suffix `data[pos:]` is the
recursion argument, so the three cases drop 2, 3 and 1 elements. -/
def decode_packet_data : List Nat → Except Err (List Nat)
  | [] => .ok []
  | 125 :: rest =>
    -- c[0:1] == b"}" (checked first): un-escape the next byte
    match rest with
    | [] => .error .missingCharAfterBrace
    | y :: rest2 =>
      match unescape_byte y with
      | .error e => .error e
      | .ok u =>
        match decode_packet_data rest2 with
        | .error e => .error e
        | .ok r => .ok (u ++ r)
  | x :: 42 :: rest2 =>
    -- c[1:2] == b"*" (and c[0:1] ≠ b"}"): run-length sequence
    match rest2 with
    | [] => .error .runLengthMissingChar
    | z :: rest3 =>
      match expand_run_length_sequence x z with
      | .error e => .error e
      | .ok seq =>
        match decode_packet_data rest3 with
        | .error e => .error e
        | .ok r => .ok (seq ++ r)
  | x :: rest =>
    -- ordinary byte: copy as is
    match decode_packet_data rest with
    | .error e => .error e
    | .ok r => .ok (x :: r)

/-- Hex digit of a value `0–15`, lowercase (48–57, 97–102),
as produced by Python `"{:02x}".format`. -/
def to_hex_digit (n : Nat) : Nat :=
  if n < 10 then 48 + n else 87 + n

/-- Source `compute_checksum`: sum of the bytes mod 256, rendered as two
lowercase zero-padded hex digit bytes. -/
def compute_checksum (packet_data : List Nat) : List Nat :=
  let checksum_val := packet_data.sum % 256
  [to_hex_digit (checksum_val / 16), to_hex_digit (checksum_val % 16)]

/-- Byte values of Python `string.hexdigits` = "0123456789abcdefABCDEF". -/
def hexdigit_bytes : List Nat :=
  [48, 49, 50, 51, 52, 53, 54, 55, 56, 57,
   97, 98, 99, 100, 101, 102, 65, 66, 67, 68, 69, 70]

/-- Source `_check_checksum_syntax` (renamed; checks a checksum is exactly
two bytes, each a hex digit). -/
def check_checksum_digits (checksum : List Nat) : Bool :=
  checksum.length == 2 && checksum.all (fun c => hexdigit_bytes.contains c)

/-- Source `create_packet`: validates a caller-supplied checksum (raising
`ValueError` for a malformed one), encodes the payload and assembles
`$` + encoded + `#` + checksum, the checksum being the supplied one or
the computed one. -/
def create_packet (packet_data : List Nat) (custom_checksum : Option (List Nat)) :
    Except Err (List Nat) :=
  match custom_checksum with
  | some cc =>
    if check_checksum_digits cc then
      .ok (36 :: encode_packet_data packet_data ++ 35 :: cc)
    else
      .error .invalidCustomChecksum
  | none =>
    .ok (36 :: encode_packet_data packet_data ++ 35 ::
          compute_checksum (encode_packet_data packet_data))

/-- Python slice `s[a:b]` (step 1) on a byte sequence: negative indices
count from the end and both bounds are clamped to `[0, len(s)]`. -/
def pySlice (s : List Nat) (a b : Int) : List Nat :=
  let L : Int := s.length
  let lo := if a < 0 then max (L + a) 0 else min a L
  let hi := if b < 0 then max (L + b) 0 else min b L
  (s.take hi.toNat).drop lo.toNat

/-- Python slice `s[a:]`. -/
def pySliceFrom (s : List Nat) (a : Int) : List Nat :=
  pySlice s a s.length

/-- Source `split_packet`: positional slicing
`(packet[0:1], packet[1:-3], packet[-3:-2], packet[-2:])`, no validation. -/
def split_packet (packet : List Nat) : List Nat × List Nat × List Nat × List Nat :=
  (pySlice packet 0 1, pySlice packet 1 (-3), pySlice packet (-3) (-2),
   pySliceFrom packet (-2))

/-- Source `validate_packet`: structural and checksum validation over the
`split_packet` decomposition, with the checks in source order. -/
def validate_packet (packet : List Nat) : Except Err Unit :=
  let parts := split_packet packet
  let first_char := parts.1
  let packet_data := parts.2.1
  let hash_char := parts.2.2.1
  let checksum := parts.2.2.2
  if packet.length < 4 then
    .error .packetTooShort
  else if first_char ≠ [36] then
    .error (.badFirstChar first_char)
  else if hash_char ≠ [35] then
    .error (.badHashChar hash_char)
  else if 36 ∈ packet_data then
    .error .dollarInPacketData
  else if 35 ∈ packet_data then
    .error .hashInPacketData
  else if ¬ check_checksum_digits checksum then
    .error (.badChecksumDigits checksum)
  else if checksum ≠ compute_checksum packet_data then
    .error (.checksumMismatch (compute_checksum packet_data) checksum)
  else
    .ok ()

/-!  Stream transport layer (`client_base.py`, class `GdbRemoteClientBase`).

The receive direction of the socket is modelled as a list of chunks, one per
return of `socket.recv`: each chunk is the pair of the waiting time until
that `recv` call returns and the bytes it returns.  `time.time()` readings
are the `now` field of the state, advanced by the waiting time of each chunk;
`settimeout`/`socket.timeout` become the comparison of the waiting time
against the bound passed to `settimeout`.  The send direction carries no
state relevant to the claims and is not tracked.  Host and port are not
modelled (they only parameterize the socket). -/

/-- One return of `socket.recv`: (waiting time until the data arrives,
bytes returned). -/
abbrev Chunk := ℚ × List Nat

/-- State of a `GdbRemoteClientBase` instance together with the model
time: `socket = none` is the disconnected state, `socket = some tr` holds
the chunks the socket will deliver.  `now` is the current `time.time()`. -/
structure ConnState where
  socket : Option (List Chunk)
  recv_timeout : ℚ
  recv_time_start : ℚ
  now : ℚ
  recv_buf : List Nat
  no_ack_mode : Bool
deriving DecidableEq

/-- Source constant `MAX_RECV_PACKET = 128 * 1024`. -/
def MAX_RECV_PACKET : Nat := 128 * 1024

/-- Source `connect`: fails when already connected; otherwise acquires the
socket (whose future receive stream is the argument `tr`), clears the
receive buffer and re-enables ACK mode.  Socket options and the TCP
handshake are not modelled. -/
def connect (tr : List Chunk) (st : ConnState) : Except Err Unit × ConnState :=
  match st.socket with
  | some _ => (.error .alreadyConnected, st)
  | none => (.ok (), { st with socket := some tr, recv_buf := [], no_ack_mode := false })

/-- Source `disconnect`: tears down the socket (shutdown/close failures
are swallowed in the source, so the model is a total function), clears
the receive buffer.  Safe on an already-disconnected instance. -/
def disconnect (st : ConnState) : ConnState :=
  { st with socket := none, recv_buf := [] }

/-- Source `_send_bytes`: asserts the data is nonempty, fails when not
connected, otherwise writes to the socket (the outgoing bytes themselves
are not tracked). -/
def send_bytes (data : List Nat) (st : ConnState) : Except Err Unit × ConnState :=
  if data.length = 0 then (.error .assertionFailed, st)
  else
    match st.socket with
    | none => (.error .notConnectedSend, st)
    | some _ => (.ok (), st)

/-- Source `_unrecv_bytes`: prepends bytes to the receive buffer. -/
def unrecv_bytes (b : List Nat) (st : ConnState) : ConnState :=
  { st with recv_buf := b ++ st.recv_buf }

/-- Source `_start_recv_timeout`: records `time.time()` as the start of
the timeout window. -/
def start_recv_timeout (st : ConnState) : ConnState :=
  { st with recv_time_start := st.now }

/-- Source `_get_recv_time_left`, as a function of the recorded start,
the configured timeout and the current `time.time()` reading.  Mirrors
the source branches exactly: negative remaining time yields 0, remaining
time strictly between 0 and 1 is rounded up to 1, and the final branch
asserts the remaining time is `≥ 1` — an assertion that fails when the
remaining time is exactly 0. -/
def get_recv_time_left (recv_time_start recv_timeout now : ℚ) : Except Err ℚ :=
  if ¬ (0 < recv_time_start) then .error .assertionFailed
  else
    let time_elapsed := now - recv_time_start
    let time_left := recv_timeout - time_elapsed
    if time_left < 0 then .ok 0
    else if 0 < time_left ∧ time_left < 1 then .ok 1
    else if 1 ≤ time_left then .ok time_left
    else .error .assertionFailed

/-- Writes the not-yet-delivered chunks back into the socket field. -/
def setSock (tr : List Chunk) (st : ConnState) : ConnState :=
  { st with socket := some tr }

/-- The `while len(self._recv_buf) < requested` loop of `_recv_bytes`:
each iteration computes the remaining time, fails with a timeout when
none is left, otherwise blocks on `socket.recv` bounded by the remaining
time — delivering the next chunk when it arrives within the bound and
timing out otherwise.  On exit the first `requested` buffered bytes are
consumed. -/
def recv_bytes_go (requested : Nat) : List Chunk → ConnState → Except Err (List Nat) × ConnState
  | tr, st =>
    if st.recv_buf.length < requested then
      match get_recv_time_left st.recv_time_start st.recv_timeout st.now with
      | .error e => (.error e, setSock tr st)
      | .ok time_left =>
        if 0 < time_left then
          match tr with
          | [] =>
            -- no data ever arrives: recv blocks until the bound expires
            (.error (.recvTimeout st.recv_timeout),
             setSock [] { st with now := st.now + time_left })
          | (delay, data) :: tr2 =>
            if time_left < delay then
              (.error (.recvTimeout st.recv_timeout),
               setSock ((delay, data) :: tr2) { st with now := st.now + time_left })
            else
              recv_bytes_go requested tr2
                { st with recv_buf := st.recv_buf ++ data, now := st.now + delay }
        else
          -- timeout exhausted before attempting the next recv
          (.error (.recvTimeout st.recv_timeout), setSock tr st)
    else
      (.ok (st.recv_buf.take requested),
       setSock tr { st with recv_buf := st.recv_buf.drop requested })

/-- Source `_recv_bytes`: asserts `requested > 0`, fails when not
connected, then runs the buffered-read loop. -/
def recv_bytes (requested : Nat) (st : ConnState) : Except Err (List Nat) × ConnState :=
  if requested = 0 then (.error .assertionFailed, st)
  else
    match st.socket with
    | none => (.error .notConnectedRecv, st)
    | some tr => recv_bytes_go requested tr st

/-- Source `check_ack`: arms the timeout window, reads one byte;
`+` (43) succeeds, `-` (45) fails as a protocol error, and any other
byte is pushed back into the receive buffer before failing as a protocol
error. -/
def check_ack (st0 : ConnState) : Except Err Unit × ConnState :=
  let st := start_recv_timeout st0
  match recv_bytes 1 st with
  | (.error e, st2) => (.error e, st2)
  | (.ok c, st2) =>
    if c = [43] then (.ok (), st2)
    else if c = [45] then (.error .nackReceived, st2)
    else (.error (.unexpectedAckByte c), unrecv_bytes c st2)

/-- Source `send_packet`: builds the raw packet via the codec, sends it,
then performs `check_ack` when requested and ACK mode is enabled. -/
def send_packet (packet_data : List Nat) (custom_checksum : Option (List Nat))
    (check_ack_arg : Bool) (st : ConnState) : Except Err Unit × ConnState :=
  match create_packet packet_data custom_checksum with
  | .error e => (.error e, st)
  | .ok data =>
    match send_bytes data st with
    | (.error e, st2) => (.error e, st2)
    | (.ok _, st2) =>
      if check_ack_arg && !st2.no_ack_mode then check_ack st2 else (.ok (), st2)

/-- Body-scan loop of `recv_packet` (`while True: b = recv; packet += b;
length check; break on the hash byte`).  The source keeps the growing `packet` and
raises once `len(packet) > MAX_RECV_PACKET` right after appending the
byte just read; here `remaining` carries `MAX_RECV_PACKET - packet.length`
so that the same check is `remaining = 0`, giving a structurally
decreasing argument. -/
def recv_packet_loop : Nat → List Nat → ConnState → Except Err (List Nat) × ConnState
  | 0, _, st =>
    match recv_bytes 1 st with
    | (.error e, st2) => (.error e, st2)
    | (.ok _, st2) => (.error (.packetTooLarge MAX_RECV_PACKET), st2)
  | r + 1, packet, st =>
    match recv_bytes 1 st with
    | (.error e, st2) => (.error e, st2)
    | (.ok b, st2) =>
      if b = [35] then (.ok (packet ++ b), st2)
      else recv_packet_loop r (packet ++ b) st2

/-- Source `recv_packet`: arms the timeout window once, requires the
first byte to be `$` (36), scans the body up to the terminating `#` (35)
under the `MAX_RECV_PACKET` bound, reads the two checksum bytes, then
optionally validates the packet and sends an ACK (when ACK mode is
enabled). -/
def recv_packet (validate_and_ack : Bool) (st0 : ConnState) :
    Except Err (List Nat) × ConnState :=
  let st := start_recv_timeout st0
  match recv_bytes 1 st with
  | (.error e, st2) => (.error e, st2)
  | (.ok b, st2) =>
    if b ≠ [36] then (.error (.badPacketStart b), st2)
    else
      match recv_packet_loop (MAX_RECV_PACKET - 1) b st2 with
      | (.error e, st3) => (.error e, st3)
      | (.ok packet, st3) =>
        match recv_bytes 2 st3 with
        | (.error e, st4) => (.error e, st4)
        | (.ok cs, st4) =>
          let packet2 := packet ++ cs
          if validate_and_ack then
            match validate_packet packet2 with
            | .error e => (.error e, st4)
            | .ok _ =>
              if !st4.no_ack_mode then
                match send_bytes [43] st4 with
                | (.error e, st5) => (.error e, st5)
                | (.ok _, st5) => (.ok packet2, st5)
              else (.ok packet2, st4)
          else (.ok packet2, st4)


/-!  Concrete states used by the claim theorems and witnesses. -/

/-- Concrete state for the C2 evaluations: timeout window armed at time 1
with the default 5-unit timeout, empty buffer, one chunk pending. -/
def C2state : ConnState :=
  { socket := some [(0, [97])], recv_timeout := 5, recv_time_start := 1, now := 7,
    recv_buf := [], no_ack_mode := false }

/-- Transport delivering `b"$abc#26"` chunked as `$ab | c# | 2 | 6garbage`
(the receive-buffering scenario of the test suite), connection armed with
the 5-unit timeout, all chunks arriving instantly. -/
def chunkedState : ConnState :=
  { socket := some [(0, [36, 97, 98]), (0, [99, 35]), (0, [50]),
                    (0, [54, 103, 97, 114, 98, 97, 103, 101])],
    recv_timeout := 5, recv_time_start := 0, now := 1,
    recv_buf := [], no_ack_mode := false }

/-- State after `recv_packet` on `chunkedState`: all chunks consumed, the
surplus `b"garbage"` retained in the receive buffer. -/
def chunkedAfter : ConnState :=
  { socket := some [], recv_timeout := 5, recv_time_start := 1, now := 1,
    recv_buf := [103, 97, 114, 98, 97, 103, 101], no_ack_mode := false }

/-- Buffered state used to instantiate C5: one more byte (here even the
terminator 35) is buffered while the scan sits at the length limit. -/
def C5state : ConnState :=
  { socket := some [], recv_timeout := 5, recv_time_start := 1, now := 1,
    recv_buf := [35], no_ack_mode := false }

/-- Connected state with two buffered bytes, used to instantiate C6. -/
def C6state : ConnState :=
  { socket := some [], recv_timeout := 5, recv_time_start := 1, now := 2,
    recv_buf := [120, 55], no_ack_mode := false }

/-- Connected state with two buffered bytes and no pending chunks, used
to instantiate C7. -/
def C7state : ConnState :=
  { socket := some [], recv_timeout := 5, recv_time_start := 1, now := 2,
    recv_buf := [55, 56], no_ack_mode := false }

/-- Disconnected state with a previously-toggled ACK mode, used to
instantiate C8. -/
def C8state : ConnState :=
  { socket := none, recv_timeout := 5, recv_time_start := 1, now := 1,
    recv_buf := [], no_ack_mode := true }

/-!  Helper lemmas about the codec. -/

/-- The ASCII check inside `_escape_byte` cannot fail for the bytes that
`encode_packet_data` escapes. -/
theorem escape_byte_of_needs_escape (c : Nat) (h : needs_escape c = true) :
    escape_byte c = .ok [c ^^^ 32] := by
  simp only [needs_escape, Bool.or_eq_true, beq_iff_eq] at h
  rcases h with (h | h) | h <;> subst h <;> rfl

/-- Bytes emitted by `encode_packet_data` are never a literal `$` or `#`. -/
theorem encode_packet_data_no_specials (p : List Nat) :
    ∀ b ∈ encode_packet_data p, b ≠ 36 ∧ b ≠ 35 := by
  induction p with
  | nil => intro b hb; simp [encode_packet_data] at hb
  | cons c rest ih =>
    intro b hb
    simp only [encode_packet_data, List.mem_append] at hb
    rcases hb with hb | hb
    · by_cases hc : needs_escape c = true
      · simp only [hc, if_true, List.mem_cons, List.mem_singleton] at hb
        simp only [needs_escape, Bool.or_eq_true, beq_iff_eq] at hc
        rcases hb with hb | hb | hfalse
        · omega
        · subst hb
          rcases hc with (hc | hc) | hc <;> subst hc <;> decide
        · exact absurd hfalse (by simp)
      · simp only [Bool.not_eq_true] at hc
        simp [hc] at hb
        subst hb
        simp only [needs_escape, Bool.or_eq_false_iff, beq_eq_false_iff_ne] at hc
        exact ⟨hc.1.2, hc.2⟩
    · exact ih b hb

/-- Hex digits of values `0â15` are members of `string.hexdigits`. -/
theorem to_hex_digit_mem : ∀ n, n ≤ 15 → hexdigit_bytes.contains (to_hex_digit n) = true := by
  decide

/-- A computed checksum always passes the checksum-digit check. -/
theorem check_checksum_digits_compute (p : List Nat) :
    check_checksum_digits (compute_checksum p) = true := by
  have h256 : p.sum % 256 < 256 := Nat.mod_lt _ (by norm_num)
  simp only [compute_checksum, check_checksum_digits, List.all_cons, List.all_nil,
    List.length_cons, List.length_nil, Bool.and_eq_true, beq_iff_eq]
  refine ⟨trivial, ?_, ?_, trivial⟩
  · exact to_hex_digit_mem _ (by omega)
  · exact to_hex_digit_mem _ (by omega)

/-- Computes `split_packet` on a well-formed raw packet
`$` + data + `#` + 2-byte checksum. -/
theorem split_packet_framed (dat cs : List Nat) (h2 : cs.length = 2) :
    split_packet (36 :: dat ++ 35 :: cs) = ([36], dat, [35], cs) := by
  have hL : (36 :: dat ++ 35 :: cs).length = dat.length + 4 := by
    simp [h2]
  unfold split_packet pySliceFrom pySlice
  rw [hL]
  norm_num
  refine ⟨?_, ?_, ?_, ?_⟩
  · -- packet[0:1]
    have h1 : (min (1 : Int) ((dat.length : Int) + 4)).toNat = 1 := by omega
    rw [h1]
    rfl
  · -- packet[1:-3]
    have h1 : (((dat.length : Int) + 4 + -3) ⊔ 0).toNat = dat.length + 1 := by omega
    have h2t : ((1 : Int) ⊓ ((dat.length : Int) + 4)).toNat = 1 := by omega
    rw [h1, h2t, List.take_succ_cons]
    rw [show List.take dat.length (dat ++ 35 :: cs) = dat from List.take_left dat (35 :: cs)]
    simp
  · -- packet[-3:-2]
    have h1 : (((dat.length : Int) + 4 + -3) ⊔ 0).toNat = dat.length + 1 := by omega
    have h2t : (((dat.length : Int) + 4 + -2) ⊔ 0).toNat = dat.length + 2 := by omega
    rw [h1, h2t]
    rw [show dat.length + 2 = dat.length + 1 + 1 from rfl, List.take_succ_cons]
    rw [List.take_append 1]
    rw [show List.take 1 (35 :: cs) = [35] from rfl]
    rw [List.drop_succ_cons]
    rw [show dat.length = dat.length + 0 from rfl, List.drop_append 0]
    rfl
  · -- packet[-2:]
    rw [if_neg (by omega : ¬ ((dat.length : Int) + 4 < 0))]
    have h1 : (((dat.length : Int) + 4 + -2) ⊔ 0).toNat = dat.length + 2 := by omega
    have h2t : ((dat.length : Int) + 4).toNat = dat.length + 4 := by omega
    rw [h1, h2t]
    rw [List.take_of_length_le (by simp [h2] : (36 :: (dat ++ 35 :: cs)).length ≤ dat.length + 4)]
    rw [show dat.length + 2 = dat.length + 1 + 1 from rfl, List.drop_succ_cons]
    rw [List.drop_append 1]
    rfl

/-- Encoding is the identity on payloads with no escape-worthy byte. -/
theorem encode_packet_data_id (p : List Nat)
    (h : ∀ b ∈ p, b ≠ 125 ∧ b ≠ 36 ∧ b ≠ 35) : encode_packet_data p = p := by
  induction p with
  | nil => rfl
  | cons c rest ih =>
    obtain ⟨h125, h36, h35⟩ := h c (List.mem_cons_self c rest)
    have hne : needs_escape c = false := by
      simp [needs_escape, h125, h36, h35]
    have hrest : ∀ b ∈ rest, b ≠ 125 ∧ b ≠ 36 ∧ b ≠ 35 :=
      fun b hb => h b (List.mem_cons_of_mem c hb)
    simp [encode_packet_data, hne, ih hrest]

theorem decode_packet_data_id (p : List Nat)
    (h125 : ∀ b ∈ p, b ≠ 125) (h42 : ∀ b ∈ p.drop 1, b ≠ 42) :
    decode_packet_data p = .ok p := by
  induction p with
  | nil => rfl
  | cons x rest ih =>
    have hx : x ≠ 125 := h125 x (List.mem_cons_self x rest)
    have hrest125 : ∀ b ∈ rest, b ≠ 125 := fun b hb => h125 b (List.mem_cons_of_mem x hb)
    have hrest42 : ∀ b ∈ rest.drop 1, b ≠ 42 := by
      intro b hb
      exact h42 b (by simpa using List.mem_of_mem_drop hb)
    have ihr := ih hrest125 hrest42
    cases rest with
    | nil => simp [decode_packet_data, hx]
    | cons y rest2 =>
      have hy : y ≠ 42 := h42 y (by simp)
      simp [decode_packet_data, hx, hy, ihr]

/-- C1 (amended): for every payload containing none of the bytes `}`
(125), `$` (36), `#` (35), and in which `*` (42) does not occur past the
first position (no payload byte is immediately followed by `*`), decoding
the encoding of the payload yields the payload again. -/
theorem C1_roundtrip (p : List Nat)
    (h : ∀ b ∈ p, b ≠ 125 ∧ b ≠ 36 ∧ b ≠ 35)
    (h42 : ∀ b ∈ p.drop 1, b ≠ 42) :
    decode_packet_data (encode_packet_data p) = .ok p := by
  have henc : encode_packet_data p = p :=
    encode_packet_data_id p (fun b hb => ⟨(h b hb).1, (h b hb).2.1, (h b hb).2.2⟩)
  rw [henc]
  exact decode_packet_data_id p (fun b hb => (h b hb).1) h42

/-- C1 (counterexample): the payload `b"a* "` contains none of `}`,`$`,`#`,
yet decoding its encoding yields `b"aaaa"`, not the payload itself — a byte
followed by `*` is re-interpreted as a run-length sequence by the decoder. -/
theorem C1_roundtrip_counterexample :
    (125 ∉ [97, 42, 32] ∧ 36 ∉ [97, 42, 32] ∧ 35 ∉ [97, 42, 32]) ∧
    decode_packet_data (encode_packet_data [97, 42, 32]) = .ok [97, 97, 97, 97] ∧
    [97, 97, 97, 97] ≠ [97, 42, 32] := by
  refine ⟨by decide, rfl, by decide⟩

/-- C1 (witness): the amended round-trip at the payload `b"*ab"` — a
leading `*` is harmless, only `*` after another byte breaks round-trips. -/
theorem C1_roundtrip_witness :
    decode_packet_data (encode_packet_data [42, 97, 98]) = .ok [42, 97, 98] :=
  C1_roundtrip [42, 97, 98] (by decide) (by decide)

/-- C3 (amended): the decode scan, position by position.  Escape is checked
before run-length; a trailing `}` is a format error; an escape pair emits
the following byte XOR 0x20 when that value is below 128 and otherwise
raises the (non-format) ASCII-encoding error; a run-length marker `*` with
no count byte, a count byte `#`/`$`, and a count byte outside ASCII 32–126
each raise their own distinct format error; a valid count byte `z` emits
the current byte repeated `z - 28` times; any other byte is copied.  The
two spec examples evaluate as stated. -/
theorem C3_decode_scan :
    (∀ y rest, y ^^^ 32 < 128 →
        decode_packet_data (125 :: y :: rest) =
          match decode_packet_data rest with
          | .error e => .error e
          | .ok r => .ok ((y ^^^ 32) :: r)) ∧
    (∀ y rest, ¬ y ^^^ 32 < 128 →
        decode_packet_data (125 :: y :: rest) = .error (.unicodeEncodeFailed (y ^^^ 32))) ∧
    decode_packet_data [125] = .error .missingCharAfterBrace ∧
    (∀ x, x ≠ 125 → decode_packet_data [x, 42] = .error .runLengthMissingChar) ∧
    (∀ x z rest, x ≠ 125 → (z = 35 ∨ z = 36) →
        decode_packet_data (x :: 42 :: z :: rest) = .error .runLengthForbiddenCountByte) ∧
    (∀ x z rest, x ≠ 125 → ¬ (z = 35 ∨ z = 36) → ¬ (32 ≤ z ∧ z ≤ 126) →
        decode_packet_data (x :: 42 :: z :: rest) = .error .runLengthCountOutOfRange) ∧
    (∀ x z rest, x ≠ 125 → ¬ (z = 35 ∨ z = 36) → 32 ≤ z → z ≤ 126 →
        decode_packet_data (x :: 42 :: z :: rest) =
          match decode_packet_data rest with
          | .error e => .error e
          | .ok r => .ok (List.replicate (z - 28) x ++ r)) ∧
    (∀ x rest, x ≠ 125 → rest.head? ≠ some 42 →
        decode_packet_data (x :: rest) =
          match decode_packet_data rest with
          | .error e => .error e
          | .ok r => .ok (x :: r)) ∧
    decode_packet_data [97, 42, 32] = .ok [97, 97, 97, 97] ∧
    decode_packet_data [69, 70, 71, 97, 42, 33, 72, 73, 74]
      = .ok [69, 70, 71, 97, 97, 97, 97, 97, 72, 73, 74] ∧
    (Err.missingCharAfterBrace ≠ Err.runLengthMissingChar ∧
     Err.runLengthMissingChar ≠ Err.runLengthForbiddenCountByte ∧
     Err.runLengthForbiddenCountByte ≠ Err.runLengthCountOutOfRange ∧
     Err.runLengthCountOutOfRange ≠ Err.missingCharAfterBrace) := by
  refine ⟨?_, ?_, rfl, ?_, ?_, ?_, ?_, ?_, rfl, rfl, by decide⟩
  · intro y rest hy
    simp [decode_packet_data, unescape_byte, escape_byte, hy]
  · intro y rest hy
    simp [decode_packet_data, unescape_byte, escape_byte, hy]
  · intro x hx
    simp [decode_packet_data, hx]
  · intro x z rest hx hz
    simp [decode_packet_data, hx, expand_run_length_sequence, hz]
  · intro x z rest hx hz hrange
    simp [decode_packet_data, hx, expand_run_length_sequence, hz, hrange]
  · intro x z rest hx hz hlo hhi
    have hrange : 32 ≤ z ∧ z ≤ 126 := ⟨hlo, hhi⟩
    simp [decode_packet_data, hx, expand_run_length_sequence, hz, hrange]
  · intro x rest hx hhead
    cases rest with
    | nil => simp [decode_packet_data, hx]
    | cons y rest2 =>
      have hy : y ≠ 42 := by
        intro hcontra
        subst hcontra
        simp at hhead
      simp [decode_packet_data, hx, hy]

/-- C3 (counterexample): after `}` the byte 160 should, per the claim, be
output as `160 XOR 0x20 = 128`; the code instead raises a
`UnicodeEncodeError` because `chr(128).encode("ascii")` fails. -/
theorem C3_decode_scan_counterexample :
    160 ^^^ 32 = 128 ∧
    decode_packet_data [125, 160] = .error (.unicodeEncodeFailed 128) := by
  exact ⟨by decide, rfl⟩

/-- C3 (witness): the run-length case evaluated at `b"a*#"`, whose count
byte `#` is rejected with the dedicated format error. -/
theorem C3_decode_scan_witness :
    decode_packet_data [97, 42, 35] = .error .runLengthForbiddenCountByte :=
  C3_decode_scan.2.2.2.2.1 97 35 [] (by decide) (by decide)

/-- C9: `encode_packet_data` escapes exactly `}` (125), `$` (36), `#` (35)
as `}` followed by the byte XOR 0x20, copies every other byte (including
`*` = 42), and maps `b"}$#*"` to `b"}]}\x04}\x03*"`. -/
theorem C9_encode :
    encode_packet_data [] = [] ∧
    (∀ c rest, encode_packet_data (c :: rest) =
        (if c = 125 ∨ c = 36 ∨ c = 35 then [125, c ^^^ 32] else [c])
          ++ encode_packet_data rest) ∧
    encode_packet_data [125, 36, 35, 42] = [125, 93, 125, 4, 125, 3, 42] := by
  refine ⟨rfl, ?_, by decide⟩
  intro c rest
  by_cases h : c = 125 ∨ c = 36 ∨ c = 35
  · have hne : needs_escape c = true := by
      rcases h with h | h | h <;> simp [needs_escape, h]
    simp [encode_packet_data, hne, h]
  · have hne : needs_escape c = false := by
      push_neg at h
      simp [needs_escape, h.1, h.2.1, h.2.2]
    simp [encode_packet_data, hne, h]

/-- C4: `validate_packet` accepts exactly when none of the six failure
conditions holds (stated over the `split_packet` decomposition, in the
source check order), and the accept/reject examples of the spec evaluate to
the stated distinct format errors. -/
theorem C4_validate :
    (∀ packet : List Nat,
      validate_packet packet = .ok () ↔
        ¬ (packet.length < 4 ∨
           (split_packet packet).1 ≠ [36] ∨
           (split_packet packet).2.2.1 ≠ [35] ∨
           36 ∈ (split_packet packet).2.1 ∨
           35 ∈ (split_packet packet).2.1 ∨
           check_checksum_digits (split_packet packet).2.2.2 = false ∨
           (split_packet packet).2.2.2 ≠ compute_checksum (split_packet packet).2.1)) ∧
    validate_packet [36, 97, 98, 99, 35, 50, 54] = .ok () ∧
    validate_packet [36, 35, 48, 48] = .ok () ∧
    validate_packet [36, 97, 35] = .error .packetTooShort ∧
    validate_packet [97, 35, 48, 48] = .error (.badFirstChar [97]) ∧
    validate_packet [36, 98, 48, 48] = .error (.badHashChar [98]) ∧
    validate_packet [36, 35, 120, 120] = .error (.badChecksumDigits [120, 120]) ∧
    validate_packet [36, 35, 48, 49] = .error (.checksumMismatch [48, 48] [48, 49]) ∧
    ([Err.packetTooShort, .badFirstChar [97], .badHashChar [98],
      .badChecksumDigits [120, 120],
      .checksumMismatch [48, 48] [48, 49]].all Err.isPacketFormatError = true) ∧
    List.Pairwise (fun a b => a ≠ b)
      [Err.packetTooShort, .badFirstChar [97], .badHashChar [98],
       .badChecksumDigits [120, 120], .checksumMismatch [48, 48] [48, 49]] := by
  refine ⟨?_, rfl, rfl, rfl, rfl, rfl, rfl, rfl, by decide, by decide⟩
  intro packet
  rcases hsp : split_packet packet with ⟨fc, pd, hc, cksum⟩
  simp only [validate_packet, hsp]
  split_ifs with h1 h2 h3 h4 h5 h6 h7 <;> simp_all

/-- C10: a packet built by `create_packet` with no custom checksum always
passes `validate_packet`, and `split_packet` decomposes it into exactly
`$`, the encoded payload, `#`, and the computed checksum of the encoded
payload. -/
theorem C10_create_split (p : List Nat) :
    ∃ packet, create_packet p none = .ok packet ∧
      validate_packet packet = .ok () ∧
      split_packet packet
        = ([36], encode_packet_data p, [35], compute_checksum (encode_packet_data p)) := by
  have hcs2 : (compute_checksum (encode_packet_data p)).length = 2 := rfl
  have hsplit := split_packet_framed (encode_packet_data p)
    (compute_checksum (encode_packet_data p)) hcs2
  refine ⟨36 :: encode_packet_data p ++ 35 :: compute_checksum (encode_packet_data p),
    rfl, ?_, hsplit⟩
  have hL : (36 :: encode_packet_data p
      ++ 35 :: compute_checksum (encode_packet_data p)).length
      = (encode_packet_data p).length + 4 := by simp [hcs2]
  have h36 : 36 ∉ encode_packet_data p :=
    fun hmem => (encode_packet_data_no_specials p 36 hmem).1 rfl
  have h35 : 35 ∉ encode_packet_data p :=
    fun hmem => (encode_packet_data_no_specials p 35 hmem).2 rfl
  simp only [validate_packet, hsplit, hL]
  rw [if_neg (by omega)]
  simp [h36, h35, check_checksum_digits_compute]

/-!  Helper lemmas about the transport layer. -/

/-- A successful buffered read of `n` bytes consumed some prefix of the
chunks of the socket, returns exactly `n` bytes, and conserves bytes: output
followed by the remaining buffer equals the old buffer followed by the
data of the consumed chunks. -/
theorem recv_bytes_go_ok (n : Nat) :
    ∀ (tr : List Chunk) (st st2 : ConnState) (out : List Nat),
      recv_bytes_go n tr st = (.ok out, st2) →
      ∃ k, st2.socket = some (tr.drop k) ∧
        out ++ st2.recv_buf = st.recv_buf ++ ((tr.take k).map Prod.snd).flatten ∧
        out.length = n := by
  intro tr
  induction tr with
  | nil =>
    intro st st2 out h
    by_cases hlen : st.recv_buf.length < n
    · rw [recv_bytes_go, if_pos hlen] at h
      rcases hg : get_recv_time_left st.recv_time_start st.recv_timeout st.now with e | tl
      · rw [hg] at h; simp at h
      · rw [hg] at h
        by_cases ht : (0 : ℚ) < tl
        · simp only [if_pos ht] at h; simp at h
        · simp only [if_neg ht] at h; simp at h
    · rw [recv_bytes_go, if_neg hlen] at h
      simp only [Prod.mk.injEq, Except.ok.injEq] at h
      obtain ⟨hout, hst⟩ := h
      subst hout hst
      refine ⟨0, by simp [setSock], by simp [setSock], ?_⟩
      simp [List.length_take, Nat.le_of_not_lt hlen]
  | cons chunk tr2 ih =>
    intro st st2 out h
    obtain ⟨delay, data⟩ := chunk
    by_cases hlen : st.recv_buf.length < n
    · rw [recv_bytes_go, if_pos hlen] at h
      rcases hg : get_recv_time_left st.recv_time_start st.recv_timeout st.now with e | tl
      · rw [hg] at h; simp at h
      · rw [hg] at h
        by_cases ht : (0 : ℚ) < tl
        · simp only [if_pos ht] at h
          by_cases hd : tl < delay
          · simp only [if_pos hd] at h; simp at h
          · simp only [if_neg hd] at h
            obtain ⟨k, h1, h2, h3⟩ := ih _ _ _ h
            refine ⟨k + 1, by simpa using h1, ?_, h3⟩
            simp only [List.take_succ_cons, List.map_cons, List.flatten_cons]
            rw [h2]
            simp [List.append_assoc]
        · simp only [if_neg ht] at h; simp at h
    · rw [recv_bytes_go, if_neg hlen] at h
      simp only [Prod.mk.injEq, Except.ok.injEq] at h
      obtain ⟨hout, hst⟩ := h
      subst hout hst
      refine ⟨0, by simp [setSock], by simp [setSock], ?_⟩
      simp [List.length_take, Nat.le_of_not_lt hlen]

/-- Unpacks a successful `recv_bytes` to the loop-level facts: the state
was connected, and the read conserves bytes as in `recv_bytes_go_ok`. -/
theorem recv_bytes_ok (n : Nat) (st st2 : ConnState) (out : List Nat)
    (h : recv_bytes n st = (.ok out, st2)) :
    ∃ tr, st.socket = some tr ∧
      ∃ k, st2.socket = some (tr.drop k) ∧
        out ++ st2.recv_buf = st.recv_buf ++ ((tr.take k).map Prod.snd).flatten ∧
        out.length = n := by
  rw [recv_bytes] at h
  by_cases hn : n = 0
  · rw [if_pos hn] at h; simp at h
  · rw [if_neg hn] at h
    rcases hs : st.socket with _ | tr
    · rw [hs] at h; simp at h
    · rw [hs] at h
      exact ⟨tr, rfl, recv_bytes_go_ok n tr st st2 out h⟩

/-- A read fully served by the buffer: it returns the first `n` buffered
bytes at once and leaves the rest, touching neither socket nor clock. -/
theorem recv_bytes_buffered (n : Nat) (st : ConnState) (tr : List Chunk)
    (hn : n ≠ 0) (hs : st.socket = some tr) (hlen : n ≤ st.recv_buf.length) :
    recv_bytes n st
      = (.ok (st.recv_buf.take n), setSock tr { st with recv_buf := st.recv_buf.drop n }) := by
  simp only [recv_bytes, if_neg hn, hs]
  rw [recv_bytes_go, if_neg (Nat.not_lt.2 hlen)]
  simp [setSock]

/-- The body-scan loop never returns a packet longer than the starting
packet plus the remaining byte allowance. -/
theorem recv_packet_loop_ok_length :
    ∀ (remaining : Nat) (packet : List Nat) (st st2 : ConnState) (out : List Nat),
      recv_packet_loop remaining packet st = (.ok out, st2) →
      out.length ≤ packet.length + remaining := by
  intro remaining
  induction remaining with
  | zero =>
    intro packet st st2 out h
    rw [recv_packet_loop] at h
    rcases hr : recv_bytes 1 st with ⟨res, stm⟩
    rw [hr] at h
    cases res with
    | error e => simp at h
    | ok b => simp at h
  | succ r ih =>
    intro packet st st2 out h
    rw [recv_packet_loop] at h
    rcases hr : recv_bytes 1 st with ⟨res, stm⟩
    rw [hr] at h
    cases res with
    | error e => simp at h
    | ok b =>
      obtain ⟨tr, _, k, _, _, hblen⟩ := recv_bytes_ok 1 st stm b hr
      by_cases hb : b = [35]
      · simp only [if_pos hb] at h
        simp only [Prod.mk.injEq, Except.ok.injEq] at h
        obtain ⟨hout, _⟩ := h
        subst hout
        simp only [List.length_append, hblen]
        omega
      · simp only [if_neg hb] at h
        have hrec := ih (packet ++ b) stm st2 out h
        simp only [List.length_append, hblen] at hrec
        omega

/-- A packet returned by `recv_packet` has at most `MAX_RECV_PACKET + 2`
bytes: the body-scan part is bounded by `MAX_RECV_PACKET` and the two
checksum bytes follow. -/
theorem recv_packet_ok_length (v : Bool) (st st2 : ConnState) (out : List Nat)
    (h : recv_packet v st = (.ok out, st2)) :
    out.length ≤ MAX_RECV_PACKET + 2 := by
  simp only [recv_packet] at h
  rcases h1 : recv_bytes 1 (start_recv_timeout st) with ⟨res1, stA⟩
  rw [h1] at h
  cases res1 with
  | error e => simp at h
  | ok b =>
    by_cases hb : b = [36]
    · simp only [if_neg (not_not_intro hb)] at h
      rcases h2 : recv_packet_loop (MAX_RECV_PACKET - 1) b stA with ⟨res2, stB⟩
      rw [h2] at h
      cases res2 with
      | error e => simp at h
      | ok packet =>
        simp only [] at h
        rcases h3 : recv_bytes 2 stB with ⟨res3, stC⟩
        rw [h3] at h
        cases res3 with
        | error e => simp at h
        | ok cs =>
          obtain ⟨_, _, _, _, _, hcslen⟩ := recv_bytes_ok 2 stB stC cs h3
          have hpk := recv_packet_loop_ok_length (MAX_RECV_PACKET - 1) b stA stB packet h2
          have hplen : packet.length ≤ MAX_RECV_PACKET := by
            subst hb
            simp only [List.length_cons, List.length_nil] at hpk
            have hmax : (1 : Nat) ≤ MAX_RECV_PACKET := by norm_num [MAX_RECV_PACKET]
            omega
          have hout : out = packet ++ cs := by
            cases v with
            | false =>
              simp only [Bool.false_eq_true, if_false] at h
              simp only [Prod.mk.injEq, Except.ok.injEq] at h
              exact h.1.symm
            | true =>
              simp only [if_pos rfl] at h
              rcases h4 : validate_packet (packet ++ cs) with e | u
              · rw [h4] at h; simp at h
              · rw [h4] at h
                cases hack : stC.no_ack_mode with
                | false =>
                  simp only [hack, Bool.not_false, if_pos rfl] at h
                  rcases h5 : send_bytes [43] stC with ⟨res5, stD⟩
                  rw [h5] at h
                  cases res5 with
                  | error e => simp at h
                  | ok u2 =>
                    simp at h
                    exact h.1.symm
                | true =>
                  simp only [hack] at h
                  simp at h
                  exact h.1.symm
          subst hout
          simp only [List.length_append, hcslen]
          omega
    · simp only [if_pos hb] at h
      simp at h

/-- C2: the remaining-time policy of the armed timeout window.  With the
5-unit timeout armed at time 1: at time 7 the remaining time is negative,
`_get_recv_time_left` clamps it to 0 and the next read fails immediately
with the timeout error, leaving the pending chunk of the socket unread; at time
11/2 the remaining 1/2 is rounded up to exactly 1.  But at time 6 —
remaining time exactly 0 — the final source assertion `time_left >= 1.0`
fails, raising `AssertionError` instead of the timeout error the
specification promises for every remaining time `≤ 0`. -/
theorem C2_timeout_policy :
    get_recv_time_left 1 5 7 = .ok 0 ∧
    (recv_bytes 1 C2state).1 = .error (.recvTimeout 5) ∧
    (recv_bytes 1 C2state).2.socket = some [(0, [97])] ∧
    get_recv_time_left 1 5 (11 / 2) = .ok 1 ∧
    get_recv_time_left 1 5 6 = .error .assertionFailed := by
  refine ⟨?_, ?_, ?_, ?_, ?_⟩ <;>
    norm_num [get_recv_time_left, recv_bytes, recv_bytes_go, setSock, C2state]

/-- Evaluates `recv_packet` over the chunked transport: the packet is
reassembled to exactly `b"$abc#26"` and the surplus stays buffered. -/
theorem recv_packet_chunked_eval :
    recv_packet true chunkedState = (.ok [36, 97, 98, 99, 35, 50, 54], chunkedAfter) := by
  have hv : validate_packet [36, 97, 98, 99, 35, 50, 54] = .ok () := rfl
  norm_num [recv_packet, recv_packet_loop, recv_bytes, recv_bytes_go,
    get_recv_time_left, start_recv_timeout, setSock, send_bytes, chunkedState,
    chunkedAfter, hv]

/-- C5: once the accumulated packet (start byte plus body bytes read so
far) has reached at least `MAX_RECV_PACKET` bytes, the very next loop
step of `recv_packet` fails with the protocol error naming the limit —
regardless of the timeout fields and even though a buffered byte (and
arbitrary further transport data) was available; and a packet returned
successfully by `recv_packet` never exceeds `MAX_RECV_PACKET + 2` bytes
in total, so its body part stays within the limit. -/
theorem C5_max_packet_length (packet : List Nat) (st : ConnState) (tr : List Chunk)
    (c : Nat) (rest : List Nat) (v : Bool) (w w2 : ConnState) (out : List Nat)
    (hs : st.socket = some tr) (hb : st.recv_buf = c :: rest)
    (hlen : MAX_RECV_PACKET ≤ packet.length)
    (hok : recv_packet v w = (.ok out, w2)) :
    (recv_packet_loop (MAX_RECV_PACKET - packet.length) packet st).1
        = .error (.packetTooLarge MAX_RECV_PACKET) ∧
    (Err.packetTooLarge MAX_RECV_PACKET).isProtocolError = true ∧
    out.length ≤ MAX_RECV_PACKET + 2 := by
  refine ⟨?_, rfl, recv_packet_ok_length v w w2 out hok⟩
  have h0 : MAX_RECV_PACKET - packet.length = 0 := Nat.sub_eq_zero_of_le hlen
  rw [h0]
  have hred := recv_bytes_buffered 1 st tr (by norm_num) hs (by rw [hb]; simp)
  simp only [recv_packet_loop, hred]

/-- C5 (witness): the limit error fires at a 131072-byte accumulated
packet with a byte still buffered. -/
theorem C5_max_packet_length_witness :
    (recv_packet_loop (MAX_RECV_PACKET - (List.replicate 131072 97).length)
        (List.replicate 131072 97) C5state).1
      = .error (.packetTooLarge MAX_RECV_PACKET) :=
  (C5_max_packet_length (List.replicate 131072 97) C5state [] 35 [] true
    chunkedState chunkedAfter [36, 97, 98, 99, 35, 50, 54] rfl rfl
    (by rw [List.length_replicate]; norm_num [MAX_RECV_PACKET]) recv_packet_chunked_eval).1

/-- C6: `check_ack` arms the timeout window and consumes exactly one
buffered byte.  `+` (43) succeeds; `-` (45) fails as the NACK protocol
error with the byte left consumed; any other byte is pushed back onto the
front of the receive buffer before the protocol error reporting it is
raised, so on that path the final receive buffer equals the buffer before
the read. -/
theorem C6_check_ack (st : ConnState) (tr : List Chunk) (c : Nat) (rest : List Nat)
    (hs : st.socket = some tr) (hb : st.recv_buf = c :: rest) :
    check_ack st =
      (if c = 43 then
        (.ok (), setSock tr { st with recv_time_start := st.now, recv_buf := rest })
       else if c = 45 then
        (.error .nackReceived,
         setSock tr { st with recv_time_start := st.now, recv_buf := rest })
       else
        (.error (.unexpectedAckByte [c]),
         setSock tr { st with recv_time_start := st.now, recv_buf := c :: rest })) ∧
    (c ≠ 43 → c ≠ 45 → (check_ack st).2.recv_buf = st.recv_buf) ∧
    Err.nackReceived.isProtocolError = true ∧
    (Err.unexpectedAckByte [c]).isProtocolError = true := by
  have hsock : (start_recv_timeout st).socket = some tr := by
    simp [start_recv_timeout, hs]
  have hlen : 1 ≤ (start_recv_timeout st).recv_buf.length := by
    simp [start_recv_timeout, hb]
  have hred := recv_bytes_buffered 1 (start_recv_timeout st) tr (by norm_num) hsock hlen
  have hmain : check_ack st =
      (if c = 43 then
        (.ok (), setSock tr { st with recv_time_start := st.now, recv_buf := rest })
       else if c = 45 then
        (.error .nackReceived,
         setSock tr { st with recv_time_start := st.now, recv_buf := rest })
       else
        (.error (.unexpectedAckByte [c]),
         setSock tr { st with recv_time_start := st.now, recv_buf := c :: rest })) := by
    simp only [check_ack, hred]
    simp only [start_recv_timeout, hb, List.take_succ_cons, List.take_zero,
      List.drop_succ_cons, List.drop_zero]
    by_cases h43 : c = 43
    · simp [h43, setSock]
    · by_cases h45 : c = 45
      · simp [h43, h45, setSock]
      · simp [h43, h45, setSock, unrecv_bytes]
  refine ⟨hmain, ?_, rfl, rfl⟩
  intro h43 h45
  rw [hmain, if_neg h43, if_neg h45, hb]
  simp [setSock]
/-- C6 (witness): an unexpected byte (`x` = 120) is reported in a protocol
error and the receive buffer is left exactly as before the read. -/
theorem C6_check_ack_witness :
    (check_ack C6state).1 = .error (.unexpectedAckByte [120]) ∧
    (check_ack C6state).2.recv_buf = C6state.recv_buf := by
  have h := C6_check_ack C6state [] 120 [55] rfl rfl
  refine ⟨?_, h.2.1 (by decide) (by decide)⟩
  rw [h.1, if_neg (by decide), if_neg (by decide)]

/-- C7: a successful buffered read of `n` bytes returns exactly `n` bytes
from the front of the receive buffer extended in arrival order by the
consumed transport chunks, with the surplus retained in the buffer
(conservation equation); and the packet `b"$abc#26"` delivered across the
chunked transport reads `$ab | c# | 2 | 6garbage` is reassembled by
`recv_packet` into exactly `b"$abc#26"` with `b"garbage"` retained. -/
theorem C7_buffered_reads (n : Nat) (st st2 : ConnState) (tr : List Chunk)
    (out : List Nat) (hn : 0 < n) (hs : st.socket = some tr)
    (hok : recv_bytes n st = (.ok out, st2)) :
    (out.length = n ∧
      ∃ k, st2.socket = some (List.drop k tr) ∧
        out ++ st2.recv_buf = st.recv_buf ++ ((tr.take k).map Prod.snd).flatten) ∧
    recv_packet true chunkedState = (.ok [36, 97, 98, 99, 35, 50, 54], chunkedAfter) ∧
    chunkedAfter.recv_buf = [103, 97, 114, 98, 97, 103, 101] := by
  refine ⟨?_, recv_packet_chunked_eval, rfl⟩
  obtain ⟨tr2, hs2, k, h1, h2, h3⟩ := recv_bytes_ok n st st2 out hok
  rw [hs] at hs2
  injection hs2 with he
  subst he
  exact ⟨h3, k, h1, h2⟩

/-- C7 (witness): the conservation property at a one-byte read from
`C7state`. -/
theorem C7_buffered_reads_witness :
    (([55] : List Nat).length = 1 ∧
      ∃ k, (setSock [] { C7state with recv_buf := [56] }).socket
            = some (List.drop k ([] : List Chunk)) ∧
        [55] ++ (setSock [] { C7state with recv_buf := [56] }).recv_buf
          = C7state.recv_buf ++ ((([] : List Chunk).take k).map Prod.snd).flatten) ∧
    recv_packet true chunkedState = (.ok [36, 97, 98, 99, 35, 50, 54], chunkedAfter) ∧
    chunkedAfter.recv_buf = [103, 97, 114, 98, 97, 103, 101] :=
  C7_buffered_reads 1 C7state (setSock [] { C7state with recv_buf := [56] }) [] [55]
    (by decide) rfl (recv_bytes_buffered 1 C7state [] (by decide) rfl (by decide))

/-- C8: the connection lifecycle.  `connect` on a connected instance fails
as the invalid-operation error and leaves the state unchanged; every
send/receive primitive on a disconnected instance fails as the respective
not-connected invalid-operation error; `disconnect` never raises (it is a
total function), clears the receive buffer, is idempotent, and is a no-op
on an already-disconnected instance; a successful `connect` forces ACK
mode on (`no_ack_mode := false`) regardless of the prior setting and
clears the receive buffer. -/
theorem C8_lifecycle (st : ConnState) (tr tr2 : List Chunk) (data : List Nat)
    (n : Nat) (hd : data ≠ []) (hn : 0 < n) :
    (connect tr2 { st with socket := some tr }).1 = .error .alreadyConnected ∧
    (connect tr2 { st with socket := some tr }).2 = { st with socket := some tr } ∧
    (send_bytes data { st with socket := none }).1 = .error .notConnectedSend ∧
    (recv_bytes n { st with socket := none }).1 = .error .notConnectedRecv ∧
    (send_packet data none true { st with socket := none }).1 = .error .notConnectedSend ∧
    (recv_packet true { st with socket := none }).1 = .error .notConnectedRecv ∧
    (check_ack { st with socket := none }).1 = .error .notConnectedRecv ∧
    disconnect (disconnect st) = disconnect st ∧
    (disconnect st).socket = none ∧
    (disconnect st).recv_buf = [] ∧
    disconnect { st with socket := none, recv_buf := [] }
      = { st with socket := none, recv_buf := [] } ∧
    (connect tr2 { st with socket := none }).1 = .ok () ∧
    (connect tr2 { st with socket := none }).2
      = { st with socket := some tr2, recv_buf := [], no_ack_mode := false } := by
  have hd0 : data.length ≠ 0 := by
    intro hzero
    exact hd (List.length_eq_zero.mp hzero)
  have hn0 : n ≠ 0 := Nat.pos_iff_ne_zero.mp hn
  refine ⟨rfl, rfl, ?_, ?_, ?_, ?_, ?_, rfl, rfl, rfl, rfl, rfl, rfl⟩
  · simp [send_bytes, hd0]
  · simp [recv_bytes, hn0]
  · simp [send_packet, create_packet, send_bytes]
  · simp [recv_packet, recv_bytes, start_recv_timeout]
  · simp [check_ack, recv_bytes, start_recv_timeout]

/-- C8 (witness): connecting an already-connected instance fails as the
invalid-operation error. -/
theorem C8_lifecycle_witness :
    (connect [] { C8state with socket := some [] }).1 = .error .alreadyConnected :=
  (C8_lifecycle C8state [] [] [43] 1 (by decide) (by decide)).1
